import Mathlib

/-!
Verification of the signed-request authentication pipeline of
rens-activity-pub (rap-server), against its natural-language specification.

The Rust sources embedded here:
  * signature.rs  — nom grammar for the Signature header
                    (identical parser code in rap-server/ and crates/rap-server/;
                    the two from_headers wrappers differ and both are modelled)
  * signed.rs / inbox.rs — header verification pipeline and rebuild_sig_str
  * key.rs        — Key::public_key and PublicKey::verify
  * users.rs      — InMemoryPeopleStore::get_or_create

External crates (base64 engine, rsa primitives, reqwest network fetch) are
modelled as explicit function parameters of the pipeline; all repository code
is translated directly.
-/

deriving instance DecidableEq for Except

namespace Rap

/-! ### nom combinators used by signature.rs, specialised to &str input.

The input is a list of characters; a parser result is `none` on a nom error,
or `some (remaining, value)`.  nom's alphanumeric classes are ASCII. -/

/-- nom `tag`: match a literal, return the rest. -/
def tagP (t : String) (input : List Char) : Option (List Char × String) :=
  if t.data.isPrefixOf input then some (input.drop t.data.length, t) else none

/-- Character class of nom `multispace0` / `multispace1`. -/
def isSpaceChar (c : Char) : Bool :=
  c = ' ' || c = '\t' || c = '\r' || c = '\n'

/-- nom `multispace0`: consume any run of whitespace; never fails. -/
def multispace0P (input : List Char) : List Char :=
  input.dropWhile isSpaceChar

/-- nom `alphanumeric1`: maximal nonempty run of ASCII alphanumerics. -/
def alphanumeric1P (input : List Char) : Option (List Char × String) :=
  let run := input.takeWhile Char.isAlphanum
  if run.isEmpty then none
  else some (input.drop run.length, String.mk run)

/-- signature.rs `token`: the source first runs `multispace0(input)?` but
discards its output (`multispace0` never fails), then applies `alphanumeric1`
to the ORIGINAL input, so leading whitespace is not actually skipped. -/
def tokenP (input : List Char) : Option (List Char × String) :=
  alphanumeric1P input

/-- signature.rs `qdtext`: `none_of("\\\"")`, one char that is neither a
backslash nor a double quote. -/
def qdtextP (input : List Char) : Option (List Char × Char) :=
  match input with
  | [] => none
  | c :: rest => if c = '\\' || c = '"' then none else some (rest, c)

/-- signature.rs `quoted_pair`: `delimited(tag("\\"), anychar, multispace0)` —
a backslash, then any one character (the value), then whitespace is consumed. -/
def quotedPairP (input : List Char) : Option (List Char × Char) :=
  match tagP "\\" input with
  | none => none
  | some (i1, _) =>
    match i1 with
    | [] => none
    | c :: i2 => some (multispace0P i2, c)

/-- The `many0(alt((qdtext, quoted_pair)))` loop of `quoted_string`.
Both alternatives always consume at least one character, so fuel
`input.length + 1` (supplied at the call site) is never exhausted. -/
def quotedCharsP : Nat → List Char → List Char × List Char
  | 0, input => (input, [])
  | fuel + 1, input =>
    match (match qdtextP input with
           | some r => some r
           | none => quotedPairP input) with
    | none => (input, [])
    | some (i1, c) =>
      let (i2, cs) := quotedCharsP fuel i1
      (i2, c :: cs)

/-- signature.rs `quoted_string`: a double-quoted string whose body is
`many0(alt((qdtext, quoted_pair)))`, collected into a `String`. -/
def quotedStringP (input : List Char) : Option (List Char × String) :=
  match tagP "\"" input with
  | none => none
  | some (i1, _) =>
    let (i2, cs) := quotedCharsP (i1.length + 1) i1
    match tagP "\"" i2 with
    | none => none
    | some (i3, _) => some (i3, String.mk cs)

/-- signature.rs `param`:
`separated_pair(token, terminated(tag("="), multispace0), alt((map(token, String::from), quoted_string)))`. -/
def paramP (input : List Char) : Option (List Char × (String × String)) :=
  match tokenP input with
  | none => none
  | some (i1, k) =>
    match tagP "=" i1 with
    | none => none
    | some (i2, _) =>
      let i3 := multispace0P i2
      match (match tokenP i3 with
             | some r => some r
             | none => quotedStringP i3) with
      | none => none
      | some (i4, v) => some (i4, (k, v))

/-- signature.rs `comma`: `delimited(multispace0, tag(","), multispace0)`. -/
def commaP (input : List Char) : Option (List Char × Unit) :=
  match tagP "," (multispace0P input) with
  | none => none
  | some (i2, _) => some (multispace0P i2, ())

/-- The iteration of nom `separated_list0(comma, param)` after the first
element: on each round try `comma` then `param`; if either fails stop with
the input as it was BEFORE the separator; if the element consumed nothing
nom raises a hard `SeparatedList` error (modelled as `none`; unreachable
here since `param` always consumes).  Each successful round strictly
shrinks the input, so fuel `input.length + 1` is never exhausted. -/
def sepLoopP : Nat → List Char → List (String × String) →
    Option (List Char × List (String × String))
  | 0, cur, acc => some (cur, acc)
  | fuel + 1, cur, acc =>
    match commaP cur with
    | none => some (cur, acc)
    | some (i1, _) =>
      match paramP i1 with
      | none => some (cur, acc)
      | some (i2, p) =>
        if i2.length = cur.length then none
        else sepLoopP fuel i2 (acc ++ [p])

/-- nom `separated_list0(comma, param)`: an empty list if the first `param`
fails, otherwise the first element followed by the separator loop. -/
def sepList0P (input : List Char) : Option (List Char × List (String × String)) :=
  match paramP input with
  | none => some (input, [])
  | some (i1, p) => sepLoopP (i1.length + 1) i1 [p]

/-- signature.rs `params`: `pair(buggy_prefix, separated_list0(comma, param))`,
where `buggy_prefix` is `opt(tag("Signature "))` — an optional legacy literal
that is discarded.  The unconsumed remainder is returned alongside the list. -/
def paramsP (input : List Char) : Option (List Char × List (String × String)) :=
  let i1 := match tagP "Signature " input with
            | some (r, _) => r
            | none => input
  sepList0P i1

/-- Rust `str::split(sep)` for a single-character pattern: split at every
occurrence of `sep`, keeping empty pieces (so the result is never empty). -/
def splitChar (sep : Char) : List Char → List String
  | [] => [""]
  | c :: rest =>
    let r := splitChar sep rest
    if c = sep then "" :: r
    else match r with
         | [] => [String.mk [c]]
         | h :: t => (String.mk (c :: h.data)) :: t

/-- signature.rs `Signature`: the parsed header parameters. -/
structure Signature where
  key_id : String
  headers : List String
  signature : String
deriving DecidableEq, Repr

/-- The accumulation loop of `Signature::from_headers`: scan the parameter
list, keeping the LAST value seen for each of the recognized keys `keyId`,
`headers`, `signature`; all other keys are ignored. -/
def pickParams (l : List (String × String)) :
    Option String × Option String × Option String :=
  l.foldl (fun acc p =>
    match p.1 with
    | "keyId" => (some p.2, acc.2.1, acc.2.2)
    | "headers" => (acc.1, some p.2, acc.2.2)
    | "signature" => (acc.1, acc.2.1, some p.2)
    | _ => acc) (none, none, none)

/-- crates/rap-server/src/signature.rs `Signature::from_headers`: parse the
parameter list (discarding the unconsumed remainder), require the three keys
(`ok_or` in source order), split the `headers` value on single spaces. -/
def fromHeaders (s : String) : Except String Signature :=
  match paramsP s.data with
  | none => .error "malformed Signature header"
  | some (_, l) =>
    match pickParams l with
    | (none, _, _) => .error "keyId not found"
    | (some _, none, _) => .error "headers not found"
    | (some _, some _, none) => .error "signature not found"
    | (some k, some hv, some sv) => .ok ⟨k, splitChar ' ' hv.data, sv⟩

/-- rap-server/src/signature.rs `Signature::from_headers`: the same parse,
but every failure is an `unwrap()` panic — `params(signature).unwrap()` and
`key_id.unwrap()` / `headers.unwrap()` / `signature.unwrap()`.  A panic is
modelled as `none`; `some` is the normal return. -/
def fromHeadersRapSrv (s : String) : Option Signature :=
  match paramsP s.data with
  | none => none
  | some (_, l) =>
    match pickParams l with
    | (some k, some hv, some sv) => some ⟨k, splitChar ' ' hv.data, sv⟩
    | _ => none

/-! ### Request headers, canonical string builder (signed.rs / inbox.rs) -/

/-- Rust `str::to_lowercase` (and the lowercasing a `HeaderName` applies),
character by character. -/
def lowerStr (s : String) : String :=
  String.mk (s.data.map Char.toLower)

/-- An axum `HeaderMap`, modelled as an association list whose stored names
are lowercase (axum normalises names on insertion).  Values are the header
strings. -/
abbrev HMap := List (String × String)

/-- `HeaderMap::get(name)`: the lookup name is normalised to lowercase,
matching against the (already lowercase) stored names. -/
def hmGet (m : HMap) (name : String) : Option String :=
  (m.find? (fun p => p.1 == lowerStr name)).map (·.2)

/-- signed.rs / inbox.rs `header_str`: required-header lookup, `Err` if the
header is absent.  (Header values are modelled as strings, so the
`to_str` UTF-8 check of the source always succeeds here.) -/
def headerStrE (m : HMap) (name : String) : Except String String :=
  match hmGet m name with
  | some v => .ok v
  | none => .error ("No header " ++ name)

/-- The per-covered-name closure inside `rebuild_sig_str` (identical in
signed.rs and inbox.rs): the exact name "(request-target)" is synthesised
without touching the header map; any other name is lowercased, looked up,
and an absent header's value position becomes the empty string
(`header_str(..).unwrap_or("")`). -/
def sigLine (account : String) (m : HMap) (h : String) : String :=
  if h = "(request-target)" then
    "(request-target): post /users/" ++ account ++ "/inbox"
  else
    let h' := lowerStr h
    h' ++ ": " ++ ((hmGet m h').getD "")

/-- `Vec<String>::join("\n")`: interleave a newline, no trailing newline. -/
def joinNL : List String → String
  | [] => ""
  | [x] => x
  | x :: y :: xs => x ++ "\n" ++ joinNL (y :: xs)

/-- signed.rs / inbox.rs `rebuild_sig_str`: one line per covered header name,
in the signer's order, joined by a single newline. -/
def rebuildSigStr (account : String) (m : HMap) (sig : Signature) : String :=
  joinNL (sig.headers.map (sigLine account m))

/-! ### Keys (key.rs) -/

/-- key.rs `PublicKey`: the public key document. -/
structure PublicKey where
  id : String
  owner : String
  public_key_pem : String
deriving DecidableEq, Repr

/-- crates/rap-server/src/key.rs `Key`: a local actor's keypair; the PEM
encodings stand in for the RSA key material. -/
structure Key where
  owner : String
  private_key_pem : String
  public_key_pem : String
deriving DecidableEq, Repr

/-- key.rs `Key::public_key`: project the stored identity to its public-key
document; the id is `format!("{}/#main-key", self.owner)`. -/
def Key.public_key (k : Key) : PublicKey :=
  ⟨k.owner ++ "/#main-key", k.owner, k.public_key_pem⟩

/-- Byte view of a string (`as_bytes`); ASCII contents make code points and
UTF-8 bytes agree for the data used here. -/
def strBytes (s : String) : List Nat :=
  s.data.map Char.toNat

/-- key.rs `PublicKey::verify(&self, data, sig)`: decode the stored PEM and
check `sig` as an RSA signature over `data`.  The external rsa crate is the
parameter `rsaVer`, taking the PEM, the message bytes, and the signature
bytes (PEM-decoding failure is folded into a `false` verdict, which the
pipeline maps to the same rejection). -/
def PublicKey.verifyWith (rsaVer : String → List Nat → List Nat → Bool)
    (pk : PublicKey) (data sig : List Nat) : Bool :=
  rsaVer pk.public_key_pem data sig

/-! ### The verification pipeline (signed.rs and inbox.rs `verify_headers`) -/

/-- The rejection kinds produced by `verify_headers` (each is a BAD_REQUEST
with a formatted message in the source). -/
inductive WebErr where
  | missingHeader : String → WebErr
  | badSignatureHeader : String → WebErr
  | badBase64 : WebErr
  | keyResolution : WebErr
  | verificationFailed : WebErr
deriving DecidableEq, Repr

/-- signed.rs `verify_headers`: extract the Signature header, parse it,
base64-decode the signature value, rebuild the canonical string, resolve the
public key by fetching `key_id` (`PublicKey::from_remote`, the network being
the parameter `fetch`), then call
`pubkey.verify(comparison.as_bytes(), &decoded_signature)` —
message first, signature second. -/
def verifyHeadersSigned (fetch : String → Option PublicKey)
    (b64 : String → Option (List Nat))
    (rsaVer : String → List Nat → List Nat → Bool)
    (m : HMap) (actor : String) : Except WebErr Unit :=
  match headerStrE m "signature" with
  | .error e => .error (.missingHeader e)
  | .ok raw =>
    match fromHeaders raw with
    | .error e => .error (.badSignatureHeader e)
    | .ok sig =>
      match b64 sig.signature with
      | none => .error .badBase64
      | some decoded =>
        let comparison := rebuildSigStr actor m sig
        match fetch sig.key_id with
        | none => .error .keyResolution
        | some pk =>
          if pk.verifyWith rsaVer (strBytes comparison) decoded then .ok ()
          else .error .verificationFailed

/-- inbox.rs `verify_headers`: same pipeline, but the final call is
`pubkey.verify(&decoded_signature, comparison.as_bytes())` — the decoded
signature bytes are passed as the message and the canonical string as the
signature bytes. -/
def verifyHeadersInbox (fetch : String → Option PublicKey)
    (b64 : String → Option (List Nat))
    (rsaVer : String → List Nat → List Nat → Bool)
    (m : HMap) (actor : String) : Except WebErr Unit :=
  match headerStrE m "signature" with
  | .error e => .error (.missingHeader e)
  | .ok raw =>
    match fromHeaders raw with
    | .error e => .error (.badSignatureHeader e)
    | .ok sig =>
      match b64 sig.signature with
      | none => .error .badBase64
      | some decoded =>
        let comparison := rebuildSigStr actor m sig
        match fetch sig.key_id with
        | none => .error .keyResolution
        | some pk =>
          if pk.verifyWith rsaVer decoded (strBytes comparison) then .ok ()
          else .error .verificationFailed

/-! ### Actor key store (users.rs) -/

/-- The RSA keypair of a local actor, as owned by the store.  The actual key
material is abstracted to the index of the generation event that produced it
(`Key::new` draws from the process RNG), which is what lets distinct
generations be counted. -/
structure KeyM where
  owner : String
  material : Nat
deriving DecidableEq, Repr

/-- users.rs `Person`. -/
structure PersonM where
  id : String
  key : KeyM
deriving DecidableEq, Repr

/-- users.rs `Person::new`: the canonical local actor URI is
`https://ap.rens.page/users/{id}`, used both as the person id and as the key
owner; `genIdx` tags the keypair generated by this call. -/
def personNew (id : String) (genIdx : Nat) : PersonM :=
  let full := "https://ap.rens.page/users/" ++ id
  ⟨full, ⟨full, genIdx⟩⟩

/-- users.rs `InMemoryPeopleStore`: the Mutex-protected people map, plus the
trace of keypair-generation events (which actor ids ran `Person::new`). -/
structure PeopleSt where
  people : List (String × PersonM)
  gens : List String
deriving DecidableEq, Repr

/-- `HashMap::get` / `contains_key` on the store. -/
def lookupP (st : PeopleSt) (id : String) : Option PersonM :=
  (st.people.find? (fun p => p.1 == id)).map (·.2)

/-- users.rs `InMemoryPeopleStore::get_or_create`: under the store lock,
insert a freshly generated `Person` if the id is absent, then return the
stored person.  Returns the new state and the returned person. -/
def getOrCreate (st : PeopleSt) (id : String) : PeopleSt × PersonM :=
  let st' := if (lookupP st id).isSome then st
             else { people := st.people ++ [(id, personNew id st.gens.length)],
                    gens := st.gens ++ [id] }
  (st', (lookupP st' id).getD ⟨"", ⟨"", 0⟩⟩)

/-- A sequence of `get_or_create` calls (the Mutex serialises them). -/
def runSeq (st : PeopleSt) : List String → PeopleSt
  | [] => st
  | id :: rest => runSeq (getOrCreate st id).1 rest

/-- The empty store the process starts with. -/
def emptyStore : PeopleSt := ⟨[], []⟩

end Rap

namespace Rap

/-! ### Claim theorems -/

/-- C6: parsing the header value
keyId="https://example.com/users/Ren\",with,quote",headers="(request-target) host date",signature="base64encodedsignature"
succeeds, the escaped quote and the embedded commas are preserved in the
keyId value, the covered headers are the three-element list, and the
signature value is the base64 text. -/
theorem parse_example_header :
    fromHeaders "keyId=\"https://example.com/users/Ren\\\",with,quote\",headers=\"(request-target) host date\",signature=\"base64encodedsignature\"" =
      .ok ⟨"https://example.com/users/Ren\",with,quote",
           ["(request-target)", "host", "date"],
           "base64encodedsignature"⟩ := by decide

/-- C4 (code bug): the rap-server/src/signature.rs version of
`Signature::from_headers` is not total — on the empty header value (or any
value lacking a required key) it reaches `key_id.unwrap()` and panics
(`none` in the model), while the crates/rap-server version of the same
function returns the typed error the claim describes. -/
theorem from_headers_rapserver_panics :
    fromHeadersRapSrv "" = none ∧ fromHeaders "" = .error "keyId not found" := by
  decide

/-- C8 (counterexample): `Key::public_key` does not produce the id
`"{owner}#main-key"` claimed by the spec; the source formats
`"{}/#main-key"`, inserting a slash before the fragment. -/
theorem public_key_id_has_slash :
    (Key.public_key ⟨"https://example.com/users/alice", "PRIV", "PUB"⟩).id =
      "https://example.com/users/alice/#main-key" ∧
    (Key.public_key ⟨"https://example.com/users/alice", "PRIV", "PUB"⟩).id ≠
      "https://example.com/users/alice" ++ "#main-key" :=
  ⟨rfl, by decide⟩

/-- C8 (amended): `public_key()` is the pure projection
`fun k => (id = owner ++ "/#main-key", owner, public-key PEM)` of the stored
identity — same value on every call, no state touched —
with the id carrying a slash before the `#main-key` fragment. -/
theorem public_key_projection (o p q : String) :
    Key.public_key ⟨o, p, q⟩ = ⟨o ++ "/#main-key", o, q⟩ :=
  rfl

/-- C1 (code bug): inbox.rs `verify_headers` invokes `PublicKey::verify`
with the two roles swapped.  With a verification oracle that accepts exactly
when the message argument is the base64-decoded signature bytes `[65,66,67]`
and the signature argument is the canonical string "date: today", the
inbox.rs pipeline ACCEPTS the request — so the decoded bytes, not the
canonical string, occupy the message role there — while signed.rs, which
passes `(comparison, decoded_signature)` as the claim states, rejects under
the same oracle. -/
theorem inbox_verify_swaps_roles :
    verifyHeadersInbox
        (fun u => if u == "K1" then some ⟨"K1#main", "owner1", "PEM1"⟩ else none)
        (fun s => if s == "QUJD" then some [65, 66, 67] else none)
        (fun pem data sg => pem == "PEM1" && data == [65, 66, 67] && sg == strBytes "date: today")
        [("signature", "keyId=\"K1\",headers=\"date\",signature=\"QUJD\""), ("date", "today")]
        "alice" = .ok () ∧
    verifyHeadersSigned
        (fun u => if u == "K1" then some ⟨"K1#main", "owner1", "PEM1"⟩ else none)
        (fun s => if s == "QUJD" then some [65, 66, 67] else none)
        (fun pem data sg => pem == "PEM1" && data == [65, 66, 67] && sg == strBytes "date: today")
        [("signature", "keyId=\"K1\",headers=\"date\",signature=\"QUJD\""), ("date", "today")]
        "alice" = .error .verificationFailed := by
  decide

/-- C2 (counterexample): key resolution never consults the local actor key
store.  For a request whose keyId is the canonical URI of the locally hosted
actor `renning` (`https://ap.rens.page/users/renning`, exactly the form
`Person::new` mints), the pipeline's verdict is decided by the network
fetch: with an unavailable network it rejects with a key-resolution error,
and with a network that serves that URI it accepts — contradicting the claim
that a locally-hosted keyId is resolved from the stored identity. -/
theorem local_key_still_fetched_remotely :
    verifyHeadersSigned (fun _ => none)
        (fun s => if s == "Qg==" then some [66] else none)
        (fun _ _ _ => true)
        [("signature", "keyId=\"https://ap.rens.page/users/renning\",headers=\"date\",signature=\"Qg==\""),
         ("date", "D2")]
        "renning" = .error .keyResolution ∧
    verifyHeadersSigned
        (fun u => if u == "https://ap.rens.page/users/renning" then
            some ⟨"https://ap.rens.page/users/renning/#main-key",
                  "https://ap.rens.page/users/renning", "PEMC"⟩
          else none)
        (fun s => if s == "Qg==" then some [66] else none)
        (fun _ _ _ => true)
        [("signature", "keyId=\"https://ap.rens.page/users/renning\",headers=\"date\",signature=\"Qg==\""),
         ("date", "D2")]
        "renning" = .ok () := by
  decide

/-- C3: the canonical-string builder emits one line per covered name in the
signer's order, joined by single newlines with no trailing newline; the line
for a name is "lowercased-name: value"; the exact name "(request-target)" is
synthesised as "(request-target): post /users/-account-/inbox" without
reading the header map; and a covered name absent from the request map gets
an empty value position. -/
theorem rebuild_sig_str_spec (account : String) (m : HMap) (kid sv : String) :
    rebuildSigStr account m ⟨kid, [], sv⟩ = ""
    ∧ (∀ h, rebuildSigStr account m ⟨kid, [h], sv⟩ = sigLine account m h)
    ∧ (∀ h h2 hs, rebuildSigStr account m ⟨kid, h :: h2 :: hs, sv⟩ =
        sigLine account m h ++ "\n" ++ rebuildSigStr account m ⟨kid, h2 :: hs, sv⟩)
    ∧ sigLine account m "(request-target)" =
        "(request-target): post /users/" ++ account ++ "/inbox"
    ∧ (∀ h, h ≠ "(request-target)" →
        sigLine account m h = lowerStr h ++ ": " ++ ((hmGet m (lowerStr h)).getD ""))
    ∧ (∀ h, h ≠ "(request-target)" → hmGet m (lowerStr h) = none →
        sigLine account m h = lowerStr h ++ ": ") := by
  refine ⟨rfl, fun h => rfl, fun h h2 hs => rfl, rfl, ?_, ?_⟩
  · intro h hne
    simp [sigLine, hne]
  · intro h hne hnone
    simp [sigLine, hne, hnone]

/-- Witness for C3, at the repository's own test vector
(test_rebuild_sig_str): actor "alice", headers Host/Date, covered names
[(request-target), Host, Date]. -/
theorem rebuild_sig_str_spec_witness :
    sigLine "alice" [("host", "example.com"), ("date", "Sun, 06 Nov 2021 08:49:37 GMT")] "Date" =
      "date: Sun, 06 Nov 2021 08:49:37 GMT" ∧
    rebuildSigStr "alice" [("host", "example.com"), ("date", "Sun, 06 Nov 2021 08:49:37 GMT")]
        ⟨"", ["(request-target)", "Host", "Date"], ""⟩ =
      "(request-target): post /users/alice/inbox\nhost: example.com\ndate: Sun, 06 Nov 2021 08:49:37 GMT" := by
  constructor
  · have h := (rebuild_sig_str_spec "alice"
      [("host", "example.com"), ("date", "Sun, 06 Nov 2021 08:49:37 GMT")] "" "").2.2.2.2.1
      "Date" (by decide)
    rw [h]
    decide
  · decide

/-- C10: the "(request-target)" line is synthesised only on an exact
all-lowercase match; any other casing of the name (anything that lowercases
to "(request-target)" without being it) is treated as an ordinary header:
lowercased and looked up in the request map, with an empty value when
absent. -/
theorem request_target_exact_case (account : String) (m : HMap) (h : String)
    (hne : h ≠ "(request-target)") (hlow : lowerStr h = "(request-target)") :
    sigLine account m h = "(request-target): " ++ ((hmGet m "(request-target)").getD "")
    ∧ sigLine account m "(request-target)" =
        "(request-target): post /users/" ++ account ++ "/inbox" := by
  constructor
  · simp only [sigLine, hne, if_neg hne, hlow]
    rfl
  · rfl

/-- Witness for C10 at the name "(Request-Target)" over a map that lacks the
header: the line is looked up, not synthesised, and the value is empty. -/
theorem request_target_exact_case_witness :
    sigLine "bob" [("host", "h1")] "(Request-Target)" = "(request-target): " := by
  have h := (request_target_exact_case "bob" [("host", "h1")] "(Request-Target)"
    (by decide) (by decide)).1
  rw [h]
  decide

/-- C7: prefixing a parameter-list string with the legacy literal
"Signature " parses to the identical result.  The hypothesis — the string
does not itself begin with "Signature " — holds for every string the
parameter-list grammar can produce, since a parameter's key token must be
immediately followed by an equals sign. -/
theorem legacy_word_tolerance (s : String)
    (h : "Signature ".data.isPrefixOf s.data = false) :
    fromHeaders ("Signature " ++ s) = fromHeaders s := by
  have hp : paramsP ("Signature " ++ s).data = paramsP s.data := by
    unfold paramsP
    rw [String.data_append]
    have h1 : tagP "Signature " ("Signature ".data ++ s.data) =
        some (s.data, "Signature ") := by
      have hpre : "Signature ".data.isPrefixOf ("Signature ".data ++ s.data) = true := by
        rw [ List.isPrefixOf_iff_prefix]
        exact List.prefix_append _ _
      rw [tagP, hpre]
      simp [List.drop_left]
    have h2 : tagP "Signature " s.data = none := by
      rw [tagP, h]
      rfl
    rw [h1, h2]
  unfold fromHeaders
  rw [hp]

/-- Witness for C7 at a concrete parameter list. -/
theorem legacy_word_tolerance_witness :
    fromHeaders ("Signature " ++ "keyId=\"wk\",headers=\"date host\",signature=\"sg\"") =
      fromHeaders "keyId=\"wk\",headers=\"date host\",signature=\"sg\"" ∧
    fromHeaders "keyId=\"wk\",headers=\"date host\",signature=\"sg\"" =
      .ok ⟨"wk", ["date", "host"], "sg"⟩ := by
  refine ⟨legacy_word_tolerance _ (by decide), by decide⟩

/-- C2 (amended): after header extraction, parsing, and base64 decoding
succeed, the pipeline resolves the signing key for EVERY keyId — local or
remote — by the network fetch of the keyId URI (`PublicKey::from_remote`);
fetch failure is the key-resolution rejection, and a fetched key proceeds to
the verification verdict. -/
theorem key_resolution_always_remote
    (fetch : String → Option PublicKey) (b64 : String → Option (List Nat))
    (rsaVer : String → List Nat → List Nat → Bool)
    (m : HMap) (actor raw : String) (sig : Signature) (decoded : List Nat)
    (h1 : headerStrE m "signature" = .ok raw)
    (h2 : fromHeaders raw = .ok sig)
    (h3 : b64 sig.signature = some decoded) :
    (fetch sig.key_id = none →
      verifyHeadersSigned fetch b64 rsaVer m actor = .error .keyResolution)
    ∧ (∀ pk, fetch sig.key_id = some pk →
        verifyHeadersSigned fetch b64 rsaVer m actor =
          if pk.verifyWith rsaVer (strBytes (rebuildSigStr actor m sig)) decoded
          then .ok () else .error .verificationFailed) := by
  constructor
  · intro hf
    unfold verifyHeadersSigned
    rw [h1]
    dsimp only
    rw [h2]
    dsimp only
    rw [h3]
    dsimp only
    rw [hf]
  · intro pk hf
    unfold verifyHeadersSigned
    rw [h1]
    dsimp only
    rw [h2]
    dsimp only
    rw [h3]
    dsimp only
    rw [hf]

/-- Witness for the amended C2: with the network down, a request signed with
the keyId of local actor carol is rejected with the key-resolution error. -/
theorem key_resolution_always_remote_witness :
    verifyHeadersSigned (fun _ => none)
      (fun s => if s == "RA==" then some [68] else none)
      (fun _ _ _ => true)
      [("signature", "keyId=\"https://ap.rens.page/users/carol\",headers=\"host\",signature=\"RA==\""),
       ("host", "hh")]
      "carol" = .error .keyResolution :=
  (key_resolution_always_remote (fun _ => none)
    (fun s => if s == "RA==" then some [68] else none)
    (fun _ _ _ => true)
    [("signature", "keyId=\"https://ap.rens.page/users/carol\",headers=\"host\",signature=\"RA==\""),
     ("host", "hh")]
    "carol"
    "keyId=\"https://ap.rens.page/users/carol\",headers=\"host\",signature=\"RA==\""
    ⟨"https://ap.rens.page/users/carol", ["host"], "RA=="⟩ [68]
    (by decide) (by decide) (by decide)).1 rfl

/-- C9: whenever the parameter-list parse of the header value yields a list
containing the three required keys, Signature::from_headers succeeds with
the values taken from that list alone — the unconsumed remainder `rest`
(arbitrary trailing text after the last parseable parameter) is silently
discarded, never rejected as a grammar violation. -/
theorem from_headers_discards_rest (s : String) (rest : List Char)
    (l : List (String × String)) (k hv sv : String)
    (hps : paramsP s.data = some (rest, l))
    (hpick : pickParams l = (some k, some hv, some sv)) :
    fromHeaders s = .ok ⟨k, splitChar ' ' hv.data, sv⟩ := by
  unfold fromHeaders
  rw [hps]
  dsimp only
  rw [hpick]

/-- Witness for C9: a valid parameter list followed by trailing garbage that
no grammar production accepts still parses successfully. -/
theorem from_headers_discards_rest_witness :
    fromHeaders "keyId=\"g\",headers=\"hg\",signature=\"sg2\" ;;; trailing garbage @@@" =
      .ok ⟨"g", ["hg"], "sg2"⟩ :=
  from_headers_discards_rest _ (" ;;; trailing garbage @@@".data)
    [("keyId", "g"), ("headers", "hg"), ("signature", "sg2")] "g" "hg" "sg2"
    (by decide) (by decide)

/-- Store invariant: no actor id has more than one keypair-generation event,
and every id with a generation event has a stored identity. -/
def StoreInv (st : PeopleSt) : Prop :=
  (∀ id, st.gens.count id ≤ 1) ∧ (∀ id, id ∈ st.gens → (lookupP st id).isSome)

theorem storeInv_empty : StoreInv emptyStore := by
  constructor <;> intro id <;> simp [emptyStore, lookupP]

theorem lookupP_append_entry (st : PeopleSt) (gens' : List String)
    (e : String × PersonM) (id : String) (p : PersonM)
    (h : lookupP st id = some p) :
    lookupP ⟨st.people ++ [e], gens'⟩ id = some p := by
  unfold lookupP at h ⊢
  rw [List.find?_append]
  cases hf : st.people.find? (fun q => q.1 == id) with
  | none => rw [hf] at h; simp at h
  | some q => rw [hf] at h; exact h

theorem getOrCreate_present (st : PeopleSt) (id : String) (p : PersonM)
    (h : lookupP st id = some p) : getOrCreate st id = (st, p) := by
  unfold getOrCreate
  rw [h]
  simp [h]

theorem getOrCreate_absent (st : PeopleSt) (id : String)
    (h : lookupP st id = none) :
    getOrCreate st id =
      (⟨st.people ++ [(id, personNew id st.gens.length)], st.gens ++ [id]⟩,
       personNew id st.gens.length) := by
  have hf : st.people.find? (fun q => q.1 == id) = none := by
    unfold lookupP at h
    exact Option.map_eq_none'.mp h
  unfold getOrCreate
  rw [h]
  simp only [Option.isSome_none, Bool.false_eq_true, if_false]
  unfold lookupP
  rw [List.find?_append, hf]
  simp

theorem storeInv_step (st : PeopleSt) (id : String) (h : StoreInv st) :
    StoreInv (getOrCreate st id).1 := by
  cases hl : lookupP st id with
  | some p => rw [getOrCreate_present st id p hl]; exact h
  | none =>
    rw [getOrCreate_absent st id hl]
    have hnotgen : id ∉ st.gens := by
      intro hmem
      have := h.2 id hmem
      rw [hl] at this
      simp at this
    constructor
    · intro id'
      show (st.gens ++ [id]).count id' ≤ 1
      rw [List.count_append]
      by_cases hid : id' = id
      · subst hid
        have h0 : st.gens.count id' = 0 := List.count_eq_zero.mpr hnotgen
        rw [h0]
        simp
      · have h0 : List.count id' [id] = 0 := by
          simp [List.count_eq_zero, hid]
        rw [h0]
        simpa using h.1 id'
    · intro id' hmem
      rw [List.mem_append] at hmem
      cases hmem with
      | inl hmem =>
        have hs := h.2 id' hmem
        cases hsome : lookupP st id' with
        | none => rw [hsome] at hs; simp at hs
        | some q =>
          have := lookupP_append_entry st (st.gens ++ [id])
            (id, personNew id st.gens.length) id' q hsome
          rw [this]
          rfl
      | inr hmem =>
        have hid : id' = id := by simpa using hmem
        subst hid
        have hf : st.people.find? (fun q => q.1 == id') = none := by
          unfold lookupP at hl
          exact Option.map_eq_none'.mp hl
        unfold lookupP
        rw [List.find?_append, hf]
        simp

theorem storeInv_run (seq : List String) : ∀ st : PeopleSt, StoreInv st →
    StoreInv (runSeq st seq) := by
  induction seq with
  | nil => intro st h; exact h
  | cons id rest ih =>
    intro st h
    exact ih _ (storeInv_step st id h)

theorem lookupP_persists_step (st : PeopleSt) (id' id : String) (p : PersonM)
    (h : lookupP st id = some p) :
    lookupP (getOrCreate st id').1 id = some p := by
  cases hl : lookupP st id' with
  | some q => rw [getOrCreate_present st id' q hl]; exact h
  | none =>
    rw [getOrCreate_absent st id' hl]
    exact lookupP_append_entry st (st.gens ++ [id'])
      (id', personNew id' st.gens.length) id p h

theorem lookupP_persists_run (seq : List String) : ∀ (st : PeopleSt) (id : String)
    (p : PersonM), lookupP st id = some p → lookupP (runSeq st seq) id = some p := by
  induction seq with
  | nil => intro st id p h; exact h
  | cons id' rest ih =>
    intro st id p h
    exact ih _ id p (lookupP_persists_step st id' id p h)

/-- C5: over any (Mutex-serialised) sequence of get_or_create calls starting
from the empty store, at most one keypair is ever generated per distinct
actor id (the `gens` trace records each `Person::new` keypair generation);
a first call for an absent id generates, stores and returns a fresh
identity; a call for a present id returns the stored identity unchanged —
no generation, no state change; and a stored identity is never removed or
replaced by later calls. -/
theorem get_or_create_spec (seq : List String) (id : String) :
    (runSeq emptyStore seq).gens.count id ≤ 1
    ∧ (∀ st, lookupP st id = none →
        getOrCreate st id =
          (⟨st.people ++ [(id, personNew id st.gens.length)], st.gens ++ [id]⟩,
           personNew id st.gens.length))
    ∧ (∀ st p, lookupP st id = some p → getOrCreate st id = (st, p))
    ∧ (∀ st seq2 p, lookupP st id = some p →
        lookupP (runSeq st seq2) id = some p) := by
  refine ⟨(storeInv_run seq emptyStore storeInv_empty).1 id,
    fun st h => getOrCreate_absent st id h,
    fun st p h => getOrCreate_present st id p h,
    fun st seq2 p h => lookupP_persists_run seq2 st id p h⟩

/-- Witness for C5 at the call sequence [a, a, b]: actor a's keypair is
generated exactly once, and the second call for a returns the identity
stored by the first, unchanged. -/
theorem get_or_create_spec_witness :
    (runSeq emptyStore ["a", "a", "b"]).gens.count "a" ≤ 1 ∧
    getOrCreate ⟨[("a", personNew "a" 0)], ["a"]⟩ "a" =
      (⟨[("a", personNew "a" 0)], ["a"]⟩, personNew "a" 0) :=
  ⟨(get_or_create_spec ["a", "a", "b"] "a").1,
   (get_or_create_spec [] "a").2.2.1 ⟨[("a", personNew "a" 0)], ["a"]⟩
     (personNew "a" 0) (by decide)⟩

end Rap
